import Mathlib

/-!
Shallow embedding of the unizen-stratosphere-sc Solana aggregator core
(src/solana-aggr): the fee engine, the post-condition verifier, the
escrow (program wSOL) lifecycle, the Jupiter swap delegator and the
orchestration flows, together with theorems checking the design
specification against this embedding.

Rust u64 arithmetic is modelled on Nat with an explicit modulus 2 ^ 64
where wrap-around matters; fallible operations return Except.
-/

namespace UnizenAggr

/-- The modulus of Rust u64 arithmetic. -/
def U64MOD : Nat := 2 ^ 64

/-- Wrapping u64 multiplication (operands assumed reduced). -/
def u64mul (a b : Nat) : Nat := a * b % U64MOD

/-- Wrapping u64 subtraction for operands below U64MOD: the value the
unchecked Rust expression a - b takes when it is allowed to wrap. -/
def u64sub (a b : Nat) : Nat := (U64MOD + a - b) % U64MOD

/-- FEE_DENOM from constants.rs. -/
def FEE_DENOM : Nat := 10000

/-- The error enum of errors.rs. -/
inductive ErrorCode
  | IncorrectOwner
  | InvalidSwapAmount
  | Underflow
deriving DecidableEq

/-- An error surfaced by a helper: one of the declared error codes, or a
failure propagated unchanged from a CPI into the system or token program. -/
inductive ProgErr
  | Code : ErrorCode → ProgErr
  | Substrate : ProgErr
deriving DecidableEq

/-- Rust u64 checked_sub. -/
def checkedSub (a b : Nat) : Option Nat :=
  if b ≤ a then some (a - b) else none

/-- assert_amount_out from helpers.rs: delta by checked subtraction,
Underflow when the balance decreased, InvalidSwapAmount when the delta is
below the threshold. -/
def assert_amount_out (prev_bal post_bal threshold : Nat) : Except ErrorCode Unit :=
  match checkedSub post_bal prev_bal with
  | none => .error .Underflow
  | some delta =>
      if delta < threshold then .error .InvalidSwapAmount else .ok ()

/-- The token-account fields the fee engine reads and writes: the
registered owner, the mint and the token balance (identities as Nat). -/
structure TokenAccountData where
  owner : Nat
  mint : Nat
  amount : Nat
deriving DecidableEq

/-- AccountsForFee from helpers.rs, reduced to the three token accounts
the fee engine moves balances between. -/
structure AccountsForFee where
  user_token_account : TokenAccountData
  unizen_token_account : TokenAccountData
  integrator_token_account : TokenAccountData
deriving DecidableEq

/-- The TakeFee event of helpers.rs. -/
structure TakeFee where
  user : Nat
  token : Nat
  amount : Nat
  fee_percent : Nat
  share_percent : Nat
deriving DecidableEq

/-- An SPL token transfer: fails when the source balance is insufficient
or the destination balance would overflow u64; otherwise moves amount and
returns the updated source and destination accounts. -/
def spl_transfer (src dst : TokenAccountData) (amount : Nat) :
    Except ProgErr (TokenAccountData × TokenAccountData) :=
  if src.amount < amount then .error .Substrate
  else if U64MOD ≤ dst.amount + amount then .error .Substrate
  else .ok ({ src with amount := src.amount - amount },
            { dst with amount := dst.amount + amount })

/-- take_integrator_fee from helpers.rs: emits the TakeFee event, returns
at once when fee_percent is zero, otherwise computes the total fee, the
unizen (protocol) share when share_percent is positive, transfers that
share to the unizen account, and transfers the remainder to the
integrator account. Returns the emitted events and the outcome. -/
def take_integrator_fee (accounts : AccountsForFee)
    (in_amount fee_percent share_percent : Nat) :
    List TakeFee × Except ProgErr AccountsForFee :=
  let events : List TakeFee :=
    [{ user := accounts.user_token_account.owner,
       token := accounts.user_token_account.mint,
       amount := in_amount, fee_percent := fee_percent,
       share_percent := share_percent }]
  if fee_percent = 0 then (events, .ok accounts)
  else
    let total_fee := u64mul in_amount fee_percent / FEE_DENOM
    let afterUnizen : Except ProgErr (Nat × AccountsForFee) :=
      if share_percent > 0 then
        let unizen_fee := u64mul total_fee share_percent / FEE_DENOM
        match spl_transfer accounts.user_token_account
            accounts.unizen_token_account unizen_fee with
        | .error e => .error e
        | .ok (src, dst) =>
            .ok (unizen_fee,
              { accounts with user_token_account := src,
                              unizen_token_account := dst })
      else .ok (0, accounts)
    match afterUnizen with
    | .error e => (events, .error e)
    | .ok (unizen_fee, accs) =>
        match spl_transfer accs.user_token_account
            accs.integrator_token_account (u64sub total_fee unizen_fee) with
        | .error e => (events, .error e)
        | .ok (src, dst) =>
            (events, .ok
              { accs with user_token_account := src,
                          integrator_token_account := dst })

/-- The fee arithmetic of take_integrator_fee in isolation: the total fee,
the unizen (protocol) share, and the integrator remainder computed by the
same u64 expressions the source uses. -/
def feeSplit (in_amount fee_percent share_percent : Nat) : Nat × Nat × Nat :=
  let total_fee := u64mul in_amount fee_percent / FEE_DENOM
  let unizen_fee :=
    if share_percent > 0 then u64mul total_fee share_percent / FEE_DENOM else 0
  (total_fee, unizen_fee, u64sub total_fee unizen_fee)

/-- The fields of an AccountInfo that swap_on_jupiter reads. -/
structure AccountInfoM where
  key : Nat
  is_signer : Bool
  is_writable : Bool
deriving DecidableEq

/-- An AccountMeta of a built instruction. -/
structure AccountMetaM where
  pubkey : Nat
  is_signer : Bool
  is_writable : Bool
deriving DecidableEq

/-- The Instruction swap_on_jupiter builds: target program id, account
metas, opaque data bytes. -/
structure InstructionM where
  program_id : Nat
  accounts : List AccountMetaM
  data : List Nat
deriving DecidableEq

/-- The one invoke_signed call swap_on_jupiter issues: the instruction,
the account infos passed along, and the signer-seeds groups (each group a
list of byte-string seeds) that make a program-derived signing authority
available to the callee. -/
structure InvokeSignedCall where
  instruction : InstructionM
  account_infos : List AccountInfoM
  signers_seeds : List (List (List Nat))
deriving DecidableEq

/-- swap_on_jupiter from helpers.rs: maps each remaining account to an
AccountMeta with the same key and flags, and issues a single
invoke_signed on the Jupiter program with the data unmodified and an
empty signer-seeds slice. -/
def swap_on_jupiter (remaining_accounts : List AccountInfoM)
    (jupiter_program : Nat) (data : List Nat) : InvokeSignedCall :=
  { instruction :=
      { program_id := jupiter_program,
        accounts := remaining_accounts.map fun acc =>
          { pubkey := acc.key, is_signer := acc.is_signer,
            is_writable := acc.is_writable },
        data := data },
    account_infos := remaining_accounts,
    signers_seeds := [] }

/-- The lamport balances and escrow storage the escrow lifecycle helpers
touch: the program wSOL account data (none when unallocated, otherwise
the registered owner of the token account), its lamports, and the
lamports of the program authority and the receiver. -/
structure EscrowLedger where
  escrow_data : Option Nat
  escrow_lamports : Nat
  authority_lamports : Nat
  receiver_lamports : Nat
deriving DecidableEq

/-- The account-changing CPIs the create path of the escrow lifecycle
can issue. -/
inductive CreateAction
  | CreateAccount
  | InitializeAccount3
deriving DecidableEq

/-- create_program_wsol_idempotent from helpers.rs. When the escrow
storage is empty: creates the account funded to the rent minimum from
the program authority (the system CreateAccount CPI fails when the
authority cannot fund it or the target already holds lamports) and
initializes it as a token account owned by the program authority, then
reads it back. When the storage is allocated: reads it and checks the
registered owner equals the program authority, failing with
IncorrectOwner otherwise; no re-initialization. Returns the CPIs issued,
and on success the owner read back together with the new ledger. -/
def create_program_wsol_idempotent (authority_key rent_min : Nat)
    (st : EscrowLedger) :
    List CreateAction × Except ProgErr (Nat × EscrowLedger) :=
  match st.escrow_data with
  | none =>
      if st.authority_lamports < rent_min ∨ st.escrow_lamports ≠ 0 then
        ([.CreateAccount], .error .Substrate)
      else
        ([.CreateAccount, .InitializeAccount3],
         .ok (authority_key,
           { st with escrow_data := some authority_key,
                     escrow_lamports := st.escrow_lamports + rent_min,
                     authority_lamports := st.authority_lamports - rent_min }))
  | some owner =>
      if owner ≠ authority_key then ([], .error (.Code .IncorrectOwner))
      else ([], .ok (owner, st))

/-- close_program_wsol from helpers.rs: computes
out_amount = wsol_balance - rent_lamports by UNCHECKED u64 subtraction
(modelled wrapping), closes the token account (fails when the escrow is
unallocated or its registered owner is not the program authority;
otherwise credits all its lamports to the authority and deallocates it),
then transfers out_amount from the authority to the receiver (fails when
the authority cannot cover it). -/
def close_program_wsol (authority_key rent_min : Nat) (st : EscrowLedger) :
    Except ProgErr EscrowLedger :=
  let out_amount := u64sub st.escrow_lamports rent_min
  match st.escrow_data with
  | none => .error .Substrate
  | some owner =>
      if owner ≠ authority_key then .error .Substrate
      else
        let st1 : EscrowLedger :=
          { escrow_data := none, escrow_lamports := 0,
            authority_lamports := st.authority_lamports + st.escrow_lamports,
            receiver_lamports := st.receiver_lamports }
        if st1.authority_lamports < out_amount then .error .Substrate
        else .ok { st1 with
          authority_lamports := st1.authority_lamports - out_amount,
          receiver_lamports := st1.receiver_lamports + out_amount }

/-- The helper calls an orchestration flow makes, in source order. -/
inductive FlowStep
  | wrapUserSol
  | takeIntegratorFee
  | createProgramWsolIdempotent
  | swapOnJupiter
  | closeProgramWsol
  | assertAmountOut
deriving DecidableEq

/-- The helper-call sequence of swap_sol_for_tokens (instructions/
swap_sol_for_tokens.rs): wrap the SOL of the user, take the fee on the
wrapped asset, delegate to Jupiter, verify the floor. -/
def swap_sol_for_tokens_steps : List FlowStep :=
  [.wrapUserSol, .takeIntegratorFee, .swapOnJupiter, .assertAmountOut]

/-- The helper-call sequence of swap_tokens_for_sol (instructions/
swap_tokens_for_sol.rs). -/
def swap_tokens_for_sol_steps : List FlowStep :=
  [.takeIntegratorFee, .createProgramWsolIdempotent, .swapOnJupiter,
   .closeProgramWsol, .assertAmountOut]

/-- The helper-call sequence of swap_tokens_for_tokens (instructions/
swap_tokens_for_tokens.rs). -/
def swap_tokens_for_tokens_steps : List FlowStep :=
  [.takeIntegratorFee, .swapOnJupiter, .assertAmountOut]

theorem take_integrator_fee_transfers (accounts : AccountsForFee)
    (a f s : Nat) (hf : f ≠ 0) (hs0 : 0 < s)
    (hu1 : ¬ accounts.user_token_account.amount < (feeSplit a f s).2.1)
    (hd1 : ¬ U64MOD ≤
      accounts.unizen_token_account.amount + (feeSplit a f s).2.1)
    (hu2 : ¬ accounts.user_token_account.amount - (feeSplit a f s).2.1 <
      (feeSplit a f s).2.2)
    (hd2 : ¬ U64MOD ≤
      accounts.integrator_token_account.amount + (feeSplit a f s).2.2) :
    (take_integrator_fee accounts a f s).2 = .ok
      { user_token_account := { accounts.user_token_account with
          amount := accounts.user_token_account.amount -
            (feeSplit a f s).2.1 - (feeSplit a f s).2.2 },
        unizen_token_account := { accounts.unizen_token_account with
          amount := accounts.unizen_token_account.amount +
            (feeSplit a f s).2.1 },
        integrator_token_account := { accounts.integrator_token_account with
          amount := accounts.integrator_token_account.amount +
            (feeSplit a f s).2.2 } } := by
  have hp : (feeSplit a f s).2.1 =
      u64mul (u64mul a f / FEE_DENOM) s / FEE_DENOM := by
    simp [feeSplit, hs0]
  have hi : (feeSplit a f s).2.2 =
      u64sub (u64mul a f / FEE_DENOM)
        (u64mul (u64mul a f / FEE_DENOM) s / FEE_DENOM) := by
    simp [feeSplit, hs0]
  rw [hp] at hu1 hd1
  rw [hp, hi] at hu2
  rw [hi] at hd2
  simp only [take_integrator_fee, if_neg hf, if_pos hs0, spl_transfer,
    if_neg hu1, if_neg hd1]
  simp only [if_neg hu2, if_neg hd2, hp, hi]

theorem u64mul_eq_mul {a b : Nat} (h : a * b < U64MOD) : u64mul a b = a * b :=
  Nat.mod_eq_of_lt h

theorem u64sub_eq_sub {a b : Nat} (hba : b ≤ a) (ha : a < U64MOD) :
    u64sub a b = a - b := by
  unfold u64sub
  rw [Nat.add_sub_assoc hba, Nat.add_mod_left]
  exact Nat.mod_eq_of_lt (lt_of_le_of_lt (Nat.sub_le a b) ha)

theorem feeSplit_total_le {a f : Nat} (hf : f ≤ FEE_DENOM) :
    a * f / FEE_DENOM ≤ a := by
  calc a * f / FEE_DENOM ≤ a * FEE_DENOM / FEE_DENOM :=
        Nat.div_le_div_right (Nat.mul_le_mul_left a hf)
    _ = a := Nat.mul_div_cancel a (by norm_num [FEE_DENOM])

theorem feeSplit_share_le {t s : Nat} (hs : s ≤ FEE_DENOM) :
    t * s / FEE_DENOM ≤ t :=
  feeSplit_total_le hs

/-- Claim C1: for fee_percent and share_percent in [0, DENOM] and
amount_in * fee_percent within u64, take_integrator_fee computes
total_fee = floor(amount_in * fee_percent / DENOM), protocol_fee equal
to floor(total_fee * share_percent / DENOM) when share_percent is
positive and 0 otherwise, integrator_fee = total_fee - protocol_fee, and
protocol_fee + integrator_fee = total_fee, with total_fee at most
amount_in. -/
theorem c1_fee_split_formulas (a f s : Nat) (hf : f ≤ FEE_DENOM)
    (hs : s ≤ FEE_DENOM) (hmul : a * f ≤ 2 ^ 64 - 1) :
    feeSplit a f s =
      (a * f / FEE_DENOM,
       if 0 < s then a * f / FEE_DENOM * s / FEE_DENOM else 0,
       a * f / FEE_DENOM -
         (if 0 < s then a * f / FEE_DENOM * s / FEE_DENOM else 0)) ∧
    (if 0 < s then a * f / FEE_DENOM * s / FEE_DENOM else 0) +
      (a * f / FEE_DENOM -
        (if 0 < s then a * f / FEE_DENOM * s / FEE_DENOM else 0)) =
      a * f / FEE_DENOM ∧
    a * f / FEE_DENOM ≤ a := by
  have haf : a * f < U64MOD := by
    have h64 : (2:Nat) ^ 64 - 1 < U64MOD := by norm_num [U64MOD]
    omega
  have h1 : u64mul a f = a * f := u64mul_eq_mul haf
  have htotlt : a * f / FEE_DENOM < U64MOD :=
    lt_of_le_of_lt (Nat.div_le_self _ _) haf
  have hts : a * f / FEE_DENOM * FEE_DENOM ≤ a * f :=
    Nat.div_mul_le_self (a * f) FEE_DENOM
  have htots : a * f / FEE_DENOM * s < U64MOD :=
    lt_of_le_of_lt (le_trans (Nat.mul_le_mul_left _ hs) hts) haf
  have h2 : u64mul (a * f / FEE_DENOM) s = a * f / FEE_DENOM * s :=
    u64mul_eq_mul htots
  have huz_le : a * f / FEE_DENOM * s / FEE_DENOM ≤ a * f / FEE_DENOM :=
    feeSplit_share_le hs
  refine ⟨?_, ?_, feeSplit_total_le hf⟩
  · by_cases hs0 : 0 < s
    · have hsub := u64sub_eq_sub huz_le htotlt
      simp only [feeSplit, h1, h2, if_pos hs0, hsub]
    · have hsub := u64sub_eq_sub (Nat.zero_le (a * f / FEE_DENOM)) htotlt
      simp only [feeSplit, h1, if_neg hs0, hsub]
  · by_cases hs0 : 0 < s
    · rw [if_pos hs0]
      exact Nat.add_sub_cancel' huz_le
    · rw [if_neg hs0]
      exact Nat.add_sub_cancel' (Nat.zero_le _)

/-- Claim C1 witness: the end-to-end scenario amount_in = 1000000,
fee_percent = 100, share_percent = 2000 yields total_fee = 10000,
protocol_fee = 2000, integrator_fee = 8000. -/
theorem c1_fee_split_formulas_witness :
    feeSplit 1000000 100 2000 = (10000, 2000, 8000) := by
  have h := c1_fee_split_formulas 1000000 100 2000 (by norm_num [FEE_DENOM])
    (by norm_num [FEE_DENOM]) (by norm_num)
  rw [h.1]
  norm_num [FEE_DENOM]

/-- Claim C2: assert_amount_out fails with Underflow exactly when the
balance decreased, fails with InvalidSwapAmount exactly when the balance
did not decrease but the delta is below minimum_delta, and succeeds
otherwise; the triples (100, 150, 60), (100, 150, 50) and (100, 90, any)
behave as the specification states. -/
theorem c2_assert_amount_out :
    (∀ prev post thr : Nat,
      (assert_amount_out prev post thr = .error .Underflow ↔ post < prev) ∧
      (assert_amount_out prev post thr = .error .InvalidSwapAmount ↔
        prev ≤ post ∧ post - prev < thr) ∧
      (assert_amount_out prev post thr = .ok () ↔
        prev ≤ post ∧ thr ≤ post - prev)) ∧
    assert_amount_out 100 150 60 = .error .InvalidSwapAmount ∧
    assert_amount_out 100 150 50 = .ok () ∧
    (∀ thr : Nat, assert_amount_out 100 90 thr = .error .Underflow) := by
  have hmain : ∀ prev post thr : Nat, assert_amount_out prev post thr =
      if prev ≤ post then
        (if post - prev < thr then .error .InvalidSwapAmount else .ok ())
      else .error .Underflow := by
    intro prev post thr
    by_cases hle : prev ≤ post <;> simp [assert_amount_out, checkedSub, hle]
  refine ⟨fun prev post thr => ?_, rfl, rfl, fun thr => rfl⟩
  rw [hmain]
  by_cases hle : prev ≤ post
  · by_cases hlt : post - prev < thr
    · rw [if_pos hle, if_pos hlt]
      refine ⟨?_, ?_, ?_⟩ <;> simp <;> omega
    · rw [if_pos hle, if_neg hlt]
      refine ⟨?_, ?_, ?_⟩ <;> simp <;> omega
  · rw [if_neg hle]
    refine ⟨?_, ?_, ?_⟩ <;> simp <;> omega

/-- Claim C8: with fee_percent = 0, take_integrator_fee returns success
at once having issued no transfer: the returned account states are the
input account states unchanged (only the event is emitted). -/
theorem c8_zero_fee_no_transfer :
    ∀ (accounts : AccountsForFee) (in_amount share_percent : Nat),
      take_integrator_fee accounts in_amount 0 share_percent =
        ([{ user := accounts.user_token_account.owner,
            token := accounts.user_token_account.mint,
            amount := in_amount, fee_percent := 0,
            share_percent := share_percent }],
         .ok accounts) := by
  intro accounts a s
  simp [take_integrator_fee]

/-- Claim C9: every invocation of take_integrator_fee emits exactly one
TakeFee record, carrying the owner of the source token account, its
mint, amount_in, fee_percent and share_percent, regardless of the
fee_percent value and of whether any transfer succeeds. -/
theorem c9_take_fee_event :
    ∀ (accounts : AccountsForFee) (a f s : Nat),
      (take_integrator_fee accounts a f s).1 =
        [{ user := accounts.user_token_account.owner,
           token := accounts.user_token_account.mint,
           amount := a, fee_percent := f, share_percent := s }] := by
  intro accounts a f s
  simp only [take_integrator_fee]
  by_cases hf : f = 0
  · rw [if_pos hf]
  · rw [if_neg hf]
    split
    · rfl
    · split <;> rfl

/-- Claim C10: when share_percent is at most FEE_DENOM (and the u64
multiplications stay in range) the unizen share never exceeds the total
fee, so the unchecked subtraction total_fee - unizen_fee in
take_integrator_fee cannot underflow and equals the exact difference;
for share_percent = 20000 > FEE_DENOM the share exceeds the total fee
and the u64 subtraction wraps. -/
theorem c10_integrator_subtraction :
    (∀ a f s : Nat, a * f ≤ 2 ^ 64 - 1 → s ≤ FEE_DENOM →
      ∃ total protocol : Nat,
        feeSplit a f s = (total, protocol, total - protocol) ∧
        protocol ≤ total) ∧
    (FEE_DENOM < 20000 ∧
     ∃ total protocol integrator : Nat,
       feeSplit 10000 10000 20000 = (total, protocol, integrator) ∧
       total < protocol ∧ integrator = 2 ^ 64 - 10000) := by
  constructor
  · intro a f s hmul hs
    have haf : a * f < U64MOD := by
      have h64 : (2:Nat) ^ 64 - 1 < U64MOD := by norm_num [U64MOD]
      omega
    have h1 : u64mul a f = a * f := u64mul_eq_mul haf
    have htotlt : a * f / FEE_DENOM < U64MOD :=
      lt_of_le_of_lt (Nat.div_le_self _ _) haf
    have hts : a * f / FEE_DENOM * FEE_DENOM ≤ a * f :=
      Nat.div_mul_le_self (a * f) FEE_DENOM
    have htots : a * f / FEE_DENOM * s < U64MOD :=
      lt_of_le_of_lt (le_trans (Nat.mul_le_mul_left _ hs) hts) haf
    have h2 : u64mul (a * f / FEE_DENOM) s = a * f / FEE_DENOM * s :=
      u64mul_eq_mul htots
    have huz_le : a * f / FEE_DENOM * s / FEE_DENOM ≤ a * f / FEE_DENOM :=
      feeSplit_share_le hs
    by_cases hs0 : 0 < s
    · refine ⟨a * f / FEE_DENOM, a * f / FEE_DENOM * s / FEE_DENOM, ?_, huz_le⟩
      have hsub := u64sub_eq_sub huz_le htotlt
      simp only [feeSplit, h1, h2, if_pos hs0, hsub]
    · refine ⟨a * f / FEE_DENOM, 0, ?_, Nat.zero_le _⟩
      have hsub := u64sub_eq_sub (Nat.zero_le (a * f / FEE_DENOM)) htotlt
      simp only [feeSplit, h1, if_neg hs0, hsub]
  · refine ⟨by norm_num [FEE_DENOM], 10000, 20000, 2 ^ 64 - 10000, ?_,
      by norm_num, rfl⟩
    norm_num [feeSplit, u64mul, u64sub, U64MOD, FEE_DENOM]

theorem u64sub_self (a : Nat) : u64sub a a = 0 := by
  unfold u64sub
  rw [Nat.add_sub_cancel, Nat.mod_self]

/-- Claim C3 (a code bug): close_program_wsol computes the out amount by
an UNCHECKED u64 subtraction, so on an escrow whose balance is below the
rent-exempt reserve it never returns the Underflow error code: the
subtraction wraps, and the helper instead fails inside the subsequent
transfer CPI. Evaluated at escrow balance 1000, rent reserve 2039280. -/
theorem c3_close_never_underflow :
    (∀ (authority_key rent_min : Nat) (st : EscrowLedger),
      close_program_wsol authority_key rent_min st ≠
        .error (.Code .Underflow)) ∧
    close_program_wsol 42 2039280
      { escrow_data := some 42, escrow_lamports := 1000,
        authority_lamports := 5000000, receiver_lamports := 0 } =
      .error .Substrate ∧
    u64sub 1000 2039280 = 2 ^ 64 - 2038280 := by
  refine ⟨?_, rfl, by norm_num [u64sub, U64MOD]⟩
  intro k r st
  obtain ⟨d, el, al, rl⟩ := st
  rcases d with _ | o
  · simp [close_program_wsol]
  · simp only [close_program_wsol]
    split_ifs <;> simp

/-- Claim C4 counterexample: at a concrete input, the invoke_signed call
built by swap_on_jupiter carries an empty signer-seeds list, so the
final conjunct of the claim (that the signing authority of the program
is made available for use by the call) is false. -/
theorem c4_counterexample :
    ¬ (let call := swap_on_jupiter
         [{ key := 1, is_signer := true, is_writable := false },
          { key := 2, is_signer := false, is_writable := true }] 7 [3, 4]
       call.instruction.program_id = 7 ∧
       call.instruction.data = [3, 4] ∧
       call.signers_seeds ≠ []) := by
  intro h
  exact h.2.2 rfl

/-- Claim C4 (amended): swap_on_jupiter issues exactly one external call
whose target is the Jupiter program identity, whose account metas equal
the caller-supplied remaining accounts element for element in order with
key, is_signer and is_writable forwarded unchanged, whose data is the
opaque call_data unmodified — but issued through invoke_signed with an
EMPTY signer-seeds list, so no program signing authority is made
available to the call. -/
theorem c4_swap_delegation (remaining : List AccountInfoM) (jup : Nat)
    (data : List Nat) :
    (swap_on_jupiter remaining jup data).instruction.program_id = jup ∧
    (swap_on_jupiter remaining jup data).instruction.accounts =
      remaining.map (fun acc =>
        { pubkey := acc.key, is_signer := acc.is_signer,
          is_writable := acc.is_writable }) ∧
    (swap_on_jupiter remaining jup data).instruction.data = data ∧
    (swap_on_jupiter remaining jup data).account_infos = remaining ∧
    (swap_on_jupiter remaining jup data).signers_seeds = [] :=
  ⟨rfl, rfl, rfl, rfl, rfl⟩

/-- Claim C5 counterexample: in the native-in flow swap_sol_for_tokens
the fee step does NOT precede the wrap step: wrap_user_sol is called
first and take_integrator_fee second. -/
theorem c5_counterexample :
    ¬ (swap_sol_for_tokens_steps.indexOf .takeIntegratorFee <
       swap_sol_for_tokens_steps.indexOf .wrapUserSol) := by decide

/-- Claim C5 (amended): in swap_sol_for_tokens the Wrap Adapter step
precedes the Fee Engine step, which precedes the Swap Delegator step,
which precedes the Post-condition Verifier step; in swap_tokens_for_sol
the Fee Engine precedes the escrow-open step, which precedes the Swap
Delegator, which precedes the escrow-close step, which precedes the
Post-condition Verifier; in swap_tokens_for_tokens the Fee Engine
precedes the Swap Delegator, which precedes the Post-condition
Verifier. -/
theorem c5_flow_order :
    (swap_sol_for_tokens_steps.indexOf .wrapUserSol <
       swap_sol_for_tokens_steps.indexOf .takeIntegratorFee ∧
     swap_sol_for_tokens_steps.indexOf .takeIntegratorFee <
       swap_sol_for_tokens_steps.indexOf .swapOnJupiter ∧
     swap_sol_for_tokens_steps.indexOf .swapOnJupiter <
       swap_sol_for_tokens_steps.indexOf .assertAmountOut) ∧
    (swap_tokens_for_sol_steps.indexOf .takeIntegratorFee <
       swap_tokens_for_sol_steps.indexOf .createProgramWsolIdempotent ∧
     swap_tokens_for_sol_steps.indexOf .createProgramWsolIdempotent <
       swap_tokens_for_sol_steps.indexOf .swapOnJupiter ∧
     swap_tokens_for_sol_steps.indexOf .swapOnJupiter <
       swap_tokens_for_sol_steps.indexOf .closeProgramWsol ∧
     swap_tokens_for_sol_steps.indexOf .closeProgramWsol <
       swap_tokens_for_sol_steps.indexOf .assertAmountOut) ∧
    (swap_tokens_for_tokens_steps.indexOf .takeIntegratorFee <
       swap_tokens_for_tokens_steps.indexOf .swapOnJupiter ∧
     swap_tokens_for_tokens_steps.indexOf .swapOnJupiter <
       swap_tokens_for_tokens_steps.indexOf .assertAmountOut) := by decide

theorem create_ok_state (k r : Nat) (st st' : EscrowLedger) (acct : Nat)
    (h : (create_program_wsol_idempotent k r st).2 = .ok (acct, st')) :
    acct = k ∧ st'.escrow_data = some k := by
  obtain ⟨d, el, al, rl⟩ := st
  rcases d with _ | o
  · simp only [create_program_wsol_idempotent] at h
    by_cases hc : al < r ∨ el ≠ 0
    · rw [if_pos hc] at h
      exact absurd h (by simp)
    · rw [if_neg hc] at h
      simp only [Except.ok.injEq, Prod.mk.injEq] at h
      obtain ⟨hk, hst⟩ := h
      subst hst
      exact ⟨hk.symm, rfl⟩
  · simp only [create_program_wsol_idempotent] at h
    by_cases hc : o ≠ k
    · rw [if_pos hc] at h
      exact absurd h (by simp)
    · have hok : o = k := not_not.mp hc
      rw [if_neg hc] at h
      simp only [Except.ok.injEq, Prod.mk.injEq] at h
      obtain ⟨hk, hst⟩ := h
      subst hst
      exact ⟨hk.symm.trans hok, by simp [hok]⟩

/-- Claim C6: create_program_wsol_idempotent is idempotent: whenever a
call succeeds, an immediate second call on the resulting ledger returns
the same account state and the same ledger, performs no CreateAccount
and no InitializeAccount3 CPI, and succeeds; and on any already
allocated escrow whose registered owner equals the program authority the
call succeeds without changing the ledger. -/
theorem c6_create_idempotent :
    (∀ (k r : Nat) (st st' : EscrowLedger) (acct : Nat),
      (create_program_wsol_idempotent k r st).2 = .ok (acct, st') →
      create_program_wsol_idempotent k r st' = ([], .ok (acct, st'))) ∧
    (∀ (k r : Nat) (st : EscrowLedger), st.escrow_data = some k →
      create_program_wsol_idempotent k r st = ([], .ok (k, st))) := by
  have hsome : ∀ (k r : Nat) (st : EscrowLedger), st.escrow_data = some k →
      create_program_wsol_idempotent k r st = ([], .ok (k, st)) := by
    intro k r st h
    unfold create_program_wsol_idempotent
    rw [h]
    simp
  refine ⟨?_, hsome⟩
  intro k r st st' acct h
  obtain ⟨hk, hd⟩ := create_ok_state k r st st' acct h
  subst hk
  exact hsome acct r st' hd

/-- Claim C7: opening the program wSOL escrow on an absent,
lamport-free escrow and closing it at once with no intervening deposit
gives the receiver exactly 0 additional lamports and leaves the escrow
deallocated and empty. -/
theorem c7_round_trip (k r : Nat) (st : EscrowLedger)
    (habs : st.escrow_data = none) (hlam : st.escrow_lamports = 0)
    (hauth : r ≤ st.authority_lamports) :
    ∃ st1 : EscrowLedger,
      (create_program_wsol_idempotent k r st).2 = .ok (k, st1) ∧
      ∃ st2 : EscrowLedger,
        close_program_wsol k r st1 = .ok st2 ∧
        st2.receiver_lamports = st.receiver_lamports ∧
        st2.escrow_data = none ∧
        st2.escrow_lamports = 0 := by
  obtain ⟨d, el, al, rl⟩ := st
  simp only at habs hlam hauth
  subst habs hlam
  have hnc : ¬ (al < r ∨ (0:Nat) ≠ 0) := by omega
  have h1 : (create_program_wsol_idempotent k r ⟨none, 0, al, rl⟩).2 =
      .ok (k, ⟨some k, 0 + r, al - r, rl⟩) := by
    simp only [create_program_wsol_idempotent]
    rw [if_neg hnc]
  have hzero : u64sub (0 + r) r = 0 := by
    rw [Nat.zero_add]
    exact u64sub_self r
  have h2 : close_program_wsol k r ⟨some k, 0 + r, al - r, rl⟩ =
      .ok ⟨none, 0, al - r + (0 + r) - 0, rl + 0⟩ := by
    simp only [close_program_wsol, hzero]
    rw [if_neg (fun hkk => hkk rfl : ¬ (k ≠ k)),
      if_neg (Nat.not_lt_zero _)]
  exact ⟨⟨some k, 0 + r, al - r, rl⟩, h1,
    ⟨none, 0, al - r + (0 + r) - 0, rl + 0⟩, h2, by simp, rfl, rfl⟩

/-- Claim C7 witness: the round trip at authority key 42, rent reserve
2039280, authority balance 3000000 and receiver balance 500. -/
theorem c7_round_trip_witness :
    ∃ st1 : EscrowLedger,
      (create_program_wsol_idempotent 42 2039280
        ⟨none, 0, 3000000, 500⟩).2 = .ok (42, st1) ∧
      ∃ st2 : EscrowLedger,
        close_program_wsol 42 2039280 st1 = .ok st2 ∧
        st2.receiver_lamports = 500 ∧
        st2.escrow_data = none ∧
        st2.escrow_lamports = 0 :=
  c7_round_trip 42 2039280 ⟨none, 0, 3000000, 500⟩ rfl rfl (by norm_num)

end UnizenAggr
